import Mathlib

/-!
Shallow embedding of the `is_around_connector` Home Assistant custom
integration (files `const.py`, `connector.py`, `coordinator.py`,
`__init__.py`).  Python dictionaries are modelled as association lists,
awaited HTTP responses and websocket-delivered future results are passed
in explicitly as oracle arguments, and a raised exception is modelled by
an `Option`/flag result.  All definitions are translated from the source
files; theorems below settle the frozen claims about them.
-/

namespace IsAroundConnector

/-! ### Constants (`const.py`) -/

def DOMAIN : String := "is_around_connector"

def SERVICE_SEND_ATTENDANCE : String := "send_attendance"

def SERVICE_REQUEST_RESEND : String := "request_resend"

def WS_TYPE_UPDATE_STATE : String := "is_around/update_state"

def WS_TYPE_PDF_CHUNK : String := "is_around/pdf_chunk"

def WS_TYPE_OPERATION_RESULT : String := "is_around/operation_result"

def WEEKLY_SCHEDULE_DATA : String := "weekly_schedule_data"

def LESSONS_DATA : String := "lessons_data"

def MEMORIALS_DATA : String := "memorials_data"

def MESSAGES_DATA : String := "messages_data"

def NEXT_OBSERVANCE_DATE : String := "next_observance_date"

/-- Timeout in seconds for waiting for responses (`RESPONSE_TIMEOUT = 30`). -/
def RESPONSE_TIMEOUT : Nat := 30

/-! ### Association-list helpers (model of Python `dict`)

Python dictionaries keyed by strings or integers are modelled as
association lists with pairwise distinct keys.  `ainsert` models
`d[k] = v` (overwriting), `alookup` models `d[k]` / `d.get(k)` and
`adelete` models `del d[k]`.  Iteration order of the underlying Python
dictionary is never observed by the embedded code. -/

def alookup {α β : Type} [DecidableEq α] (k : α) : List (α × β) → Option β
  | [] => none
  | p :: ps => if p.1 = k then some p.2 else alookup k ps

def ainsert {α β : Type} [DecidableEq α] (k : α) (v : β) (l : List (α × β)) :
    List (α × β) :=
  (k, v) :: l.filter (fun p => decide (p.1 ≠ k))

def adelete {α β : Type} [DecidableEq α] (k : α) (l : List (α × β)) :
    List (α × β) :=
  l.filter (fun p => decide (p.1 ≠ k))

def akeys {α β : Type} (l : List (α × β)) : List α := l.map Prod.fst

/-! ### Connector (`connector.py`)

The HTTP layer is abstracted by passing each awaited response in as an
argument: `some (status, ...)` is a completed response with that status
code, `none` is a request that raised an exception.  A response with a
non-2xx status fed to `raise_for_status` becomes a raised
`ClientResponseError` carrying the status. -/

structure Connector where
  app_url : String
  token : Option String := none
  cookies : List (String × String) := []
  username : Option String := none
  password : Option String := none
deriving DecidableEq

def rstripSlashes (s : String) : String :=
  ⟨(s.toList.reverse.dropWhile (fun c => c == '/')).reverse⟩

/-- Constructor `IsAroundConnector.__init__`. -/
def Connector.init (app_url : String) : Connector :=
  { app_url := rstripSlashes app_url }

def Connector.loginUrl (c : Connector) : String :=
  c.app_url ++ "/api/admin/login"

def Connector.observancesUrl (c : Connector) : String :=
  c.app_url ++ "/api/admin/attendance/observances"

/-- Method `IsAroundConnector.authenticate`.  The wire response is
`some (status, cookies)`, or `none` when the POST itself raised; the
method stores the attempted credentials before issuing the request,
captures cookies on a 200 and returns `false` on every other outcome. -/
def Connector.authenticate (c : Connector) (username password : String)
    (resp : Option (Nat × List (String × String))) : Connector × Bool :=
  let c1 := { c with username := some username, password := some password }
  match resp with
  | some (status, respCookies) =>
    if status = 200 then
      ({ c1 with
          cookies := respCookies.foldl (fun cs kv => ainsert kv.1 kv.2 cs) c1.cookies },
        true)
    else (c1, false)
  | none => (c1, false)

/-- Method `IsAroundConnector.test_connection`: `http` maps a URL to the
status of the GET response, or `none` when the request raised. -/
def Connector.test_connection (c : Connector) (http : String → Option Nat) : Bool :=
  match http c.observancesUrl with
  | some status => status == 200 || status == 401 || status == 403
  | none => false

/-- Outcome of one invocation of a wrapped connector method: either a
returned value or a raised `ClientResponseError` with the given status. -/
inductive CallResult (α : Type) where
  | ok (v : α)
  | err (status : Nat)
deriving DecidableEq

/-- Result of running a `handle_401`-wrapped method to completion. -/
inductive MethodResult (α : Type) where
  | returned (v : α)
  | raised (status : Nat)
deriving DecidableEq

def liftCall {α : Type} : CallResult α → MethodResult α
  | .ok v => .returned v
  | .err s => .raised s

/-- Trace of one run of a method wrapped by the `handle_401` decorator:
the overall result, the connector state afterwards, how many times
`self.authenticate` ran and with which arguments, and how many times the
wrapped function itself ran. -/
structure WrapRun (α : Type) where
  result : MethodResult α
  connector : Connector
  authCalls : Nat
  authArgs : Option (String × String)
  funcCalls : Nat
deriving DecidableEq

/-- Decorator `handle_401` from `connector.py`.  `call1` and `call2` are
the outcomes of the first and (if reached) second invocation of the
wrapped function; `authResp` is the wire response that
`self.authenticate` would observe.  A falsy stored username or password
(Python `None` or the empty string) counts as missing credentials. -/
def handle_401 {α : Type} (c : Connector) (call1 call2 : CallResult α)
    (authResp : Option (Nat × List (String × String))) : WrapRun α :=
  match call1 with
  | .ok v => ⟨.returned v, c, 0, none, 1⟩
  | .err status =>
    if status = 401 then
      match c.username, c.password with
      | some u, some p =>
        if u.isEmpty || p.isEmpty then ⟨.raised status, c, 0, none, 1⟩
        else
          let ca := c.authenticate u p authResp
          if ca.2 then ⟨liftCall call2, ca.1, 1, some (u, p), 2⟩
          else ⟨.raised status, ca.1, 1, some (u, p), 1⟩
      | _, _ => ⟨.raised status, c, 0, none, 1⟩
    else ⟨.raised status, c, 0, none, 1⟩

/-! ### Observances payloads

A Python dictionary is falsy when empty; `truthy` records the Python
truth value of the corresponding dictionary.  `nextObservance = none`
models both a missing key and an explicit `None`. -/

structure Observance where
  truthy : Bool
  date : Option String
deriving DecidableEq

structure ObsData where
  truthy : Bool
  nextObservance : Option Observance
deriving DecidableEq

/-- Outcome of `await asyncio.wait_for(future, timeout)`: the resolved
value, `asyncio.TimeoutError`, or some other raised exception (for
example one set on the future by `handle_operation_result`). -/
inductive WaitOutcome (α : Type) where
  | success (v : α)
  | timedOut
  | failure (e : String)
deriving DecidableEq

/-! ### Correlation-slot traces

Each request path stores a fresh `asyncio.Future` under a per-entry
key, fires a request towards the server, awaits the future with a
timeout, and pops the key in a `finally` block.  `EntrySlots` records
which of the three keys are present in the entry data and `Ev` is one
observable step of a handler run. -/

structure EntrySlots where
  pdf_future : Bool := false
  operation_future : Bool := false
  observances_future : Bool := false
deriving DecidableEq

inductive Ev where
  | setSlot (key : String)
  | fire (req : String)
  | waitSlot (key : String) (timeout : Nat)
  | popSlot (key : String)
deriving DecidableEq

/-- Modelled from the spec: the event-based connector methods used by
`__init__.py` and `coordinator.py` (`request_pdf`, `request_observances`,
`request_attendance_push`, `request_attendance_stats`) are not among the
embedded source files; per the specification they post fire-and-forget
requests on the host event bus and do not raise, so a fired request is
modelled as the trace event `Ev.fire` carrying the request name. -/
def fireRequest (req : String) : Ev := Ev.fire req

/-- Future key used to correlate each fired request. -/
def slotForReq : String → String
  | "request_pdf" => "pdf_future"
  | "request_observances" => "observances_future"
  | _ => "operation_future"

def applyEv (active : List String) : Ev → List String
  | .setSlot k => k :: active.filter (fun a => decide (a ≠ k))
  | .popSlot k => active.filter (fun a => decide (a ≠ k))
  | _ => active

/-- Checks that along the trace at most one correlation future is ever
in flight, starting from an entry with no stored futures. -/
def uniqueInFlightAux : List String → List Ev → Bool
  | _, [] => true
  | act, e :: es =>
    let act2 := applyEv act e
    decide (act2.length ≤ 1) && uniqueInFlightAux act2 es

def uniqueInFlight (t : List Ev) : Bool := uniqueInFlightAux [] t

/-- Checks that every fired request was preceded by storing the future
under its correlation key. -/
def firesAfterSet : List String → List Ev → Bool
  | _, [] => true
  | seen, .setSlot k :: es => firesAfterSet (k :: seen) es
  | seen, .fire r :: es => decide (slotForReq r ∈ seen) && firesAfterSet seen es
  | seen, _ :: es => firesAfterSet seen es

/-- Checks that every future wait along the trace uses a 30 second
timeout. -/
def allWaits30 : List Ev → Bool
  | [] => true
  | .waitSlot _ t :: es => (t == 30) && allWaits30 es
  | _ :: es => allWaits30 es

/-! ### Coordinator (`coordinator.py`) -/

/-- Result of `_async_update_data`: either updated data (possibly
`None`) or the raised `UpdateFailed`, whose message wraps the cause. -/
inductive UpdateOutcome (α : Type) where
  | ok (v : Option α)
  | updateFailed (message : String) (cause : String)
deriving DecidableEq

/-- Staleness test from `_async_update_data`: the fetched observances
are falsy, have no truthy `nextObservance`, or its date differs from the
stored one. -/
def obsStale (obs : ObsData) (d : String) : Bool :=
  !obs.truthy ||
    (match obs.nextObservance with
      | none => true
      | some o => !o.truthy || decide (o.date ≠ some d))

/-- Full output of one coordinator update run: the outcome, the stored
next-observance date afterwards, the entry future slots afterwards and
the trace of correlation-slot events. -/
structure CoordRun (α : Type) where
  outcome : UpdateOutcome α
  storedDate : Option String
  slots : EntrySlots
  trace : List Ev
deriving DecidableEq

/-- Method `IsAroundDataUpdateCoordinator._async_update_data`.
`storedDate` is `hass.data[DOMAIN]` at key `entry_id + "_next_observance_date"`,
`obsWait` and `statsWait` are the outcomes of the two awaits.  The
fire-and-forget event posts (`request_observances`,
`request_attendance_stats`) do not raise. -/
def coordinator_update {α : Type} (storedDate : Option String)
    (slots : EntrySlots) (obsWait : WaitOutcome ObsData)
    (statsWait : WaitOutcome α) : CoordRun α :=
  match storedDate with
  | none => ⟨.ok none, none, slots, []⟩
  | some d =>
    let ev1 : List Ev :=
      [.setSlot "observances_future", fireRequest "request_observances",
        .waitSlot "observances_future" RESPONSE_TIMEOUT,
        .popSlot "observances_future"]
    let slots2 := { slots with observances_future := false }
    match obsWait with
    | .timedOut => ⟨.ok none, some d, slots2, ev1⟩
    | .failure e =>
      ⟨.updateFailed ("Error communicating with server: " ++ e) e, some d,
        slots2, ev1⟩
    | .success obs =>
      if obsStale obs d then ⟨.ok none, none, slots2, ev1⟩
      else
        let ev2 : List Ev := ev1 ++
          [.setSlot "operation_future", fireRequest "request_attendance_stats",
            .waitSlot "operation_future" RESPONSE_TIMEOUT,
            .popSlot "operation_future"]
        let slots4 := { slots2 with operation_future := false }
        match statsWait with
        | .timedOut => ⟨.ok none, some d, slots4, ev2⟩
        | .failure e =>
          ⟨.updateFailed ("Error communicating with server: " ++ e) e,
            some d, slots4, ev2⟩
        | .success st => ⟨.ok (some st), some d, slots4, ev2⟩

/-! ### Service handlers (`__init__.py`, inside `async_setup_entry`)

Only the correlation-future lifecycle of the handlers is modelled in the
traces; the PDF decoding, temp-file and printer-lookup tail of
`handle_print_next_observance` never touches the entry futures and is
collapsed into the result constructor. -/

inductive PrintResult where
  | noObservances
  | noNextObservance
  | noDate
  | timedOut
  | raised (e : String)
  | printed (base64_pdf : String)
deriving DecidableEq

/-- Service handler `handle_print_next_observance`.  `obsData` is the
value returned by `connector.async_get_observances()` (an event-based
helper whose body lives outside the embedded files and does not touch
these slots); `pdfWait` is the outcome of awaiting `pdf_future`. -/
def print_next_observance_run (slots : EntrySlots) (obsData : Option ObsData)
    (pdfWait : WaitOutcome String) : EntrySlots × List Ev × PrintResult :=
  match obsData with
  | none => (slots, [], .noObservances)
  | some obs =>
    if !obs.truthy then (slots, [], .noObservances)
    else
      match obs.nextObservance with
      | none => (slots, [], .noNextObservance)
      | some nxt =>
        if !nxt.truthy then (slots, [], .noNextObservance)
        else
          match nxt.date with
          | none => (slots, [], .noDate)
          | some d =>
            if d.isEmpty then (slots, [], .noDate)
            else
              let tr : List Ev :=
                [.setSlot "pdf_future", fireRequest "request_pdf",
                  .waitSlot "pdf_future" RESPONSE_TIMEOUT,
                  .popSlot "pdf_future"]
              let slots2 := { slots with pdf_future := false }
              match pdfWait with
              | .timedOut => (slots2, tr, .timedOut)
              | .failure e => (slots2, tr, .raised e)
              | .success b64 => (slots2, tr, .printed b64)

inductive SendResult where
  | noObservances
  | noNextObservance
  | timedOut
  | raised (e : String)
  | completed
deriving DecidableEq

/-- Service handler `handle_send_attendance`.  `obsData` is the value of
`connector.async_get_observances()`; `opWait` is the outcome of awaiting
`operation_future`. -/
def send_attendance_run {α : Type} (slots : EntrySlots)
    (obsData : Option ObsData) (opWait : WaitOutcome α) :
    EntrySlots × List Ev × SendResult :=
  match obsData with
  | none => (slots, [], .noObservances)
  | some obs =>
    if !obs.truthy then (slots, [], .noObservances)
    else
      match obs.nextObservance with
      | none => (slots, [], .noNextObservance)
      | some nxt =>
        if !nxt.truthy then (slots, [], .noNextObservance)
        else
          match nxt.date with
          | none => (slots, [], .noNextObservance)
          | some d =>
            if d.isEmpty then (slots, [], .noNextObservance)
            else
              let tr : List Ev :=
                [.setSlot "operation_future", fireRequest "request_attendance_push",
                  .waitSlot "operation_future" RESPONSE_TIMEOUT,
                  .popSlot "operation_future"]
              let slots2 := { slots with operation_future := false }
              match opWait with
              | .timedOut => (slots2, tr, .timedOut)
              | .failure e => (slots2, tr, .raised e)
              | .success _ => (slots2, tr, .completed)

/-! ### Registrations performed by `async_setup_entry` (`__init__.py`) -/

structure HostRegistrations where
  services : List (String × String)
  wsCommands : List String
deriving DecidableEq

/-- The service and websocket-command registrations executed, in order,
by a run of `async_setup_entry` that returns `True`. -/
def async_setup_entry_registrations : HostRegistrations :=
  { services :=
      [(DOMAIN, "print_next_observance"), (DOMAIN, "test_connection"),
        (DOMAIN, SERVICE_SEND_ATTENDANCE), (DOMAIN, SERVICE_REQUEST_RESEND)],
    wsCommands := [WS_TYPE_UPDATE_STATE, WS_TYPE_PDF_CHUNK, WS_TYPE_OPERATION_RESULT] }

/-! ### Entry data namespace and websocket messages (`__init__.py`)

`EntryData` models one loaded config entry slot of `hass.data[DOMAIN]`.
Sensor attribute dictionaries are opaque to the embedded code and are
modelled as association lists.  A future slot is `none` when the key is
absent, otherwise it carries the state of the stored `asyncio.Future`. -/

abbrev Attrs := List (String × String)

inductive Fut (α : Type) where
  | pending
  | resolved (v : α)
  | failed (e : String)
deriving DecidableEq

structure StateUpdate where
  state : String
  attributes : Attrs
deriving DecidableEq

/-- Nested `data` dictionary of an `is_around/update_state` message;
each field is `none` when the key is absent. -/
structure MsgData where
  entity_id : Option String := none
  state : Option String := none
  attributes : Option Attrs := none
deriving DecidableEq

/-- Buffer for one in-flight PDF transfer:
`entry_data["pdf_chunks"][request_id]`.  Chunk indices are modelled as
naturals; a key that never matches `range(total_chunks)` behaves like
any other never-matching dictionary key. -/
structure ChunkBuffer where
  chunks : List (Nat × String)
  total_chunks : Nat
deriving DecidableEq

structure EntryData where
  weekly_schedule_data : Option StateUpdate := none
  lessons_data : Option StateUpdate := none
  memorials_data : Option StateUpdate := none
  messages_data : Option StateUpdate := none
  observances_data : Option MsgData := none
  pdf_chunks : List (String × ChunkBuffer) := []
  pdf_future : Option (Fut String) := none
  observances_future : Option (Fut MsgData) := none
deriving DecidableEq

/-- Payload of an `is_around/pdf_chunk` websocket message (all fields
are required by the command schema). -/
structure ChunkMsg where
  request_id : String
  chunk_index : Nat
  total_chunks : Nat
  data : String
deriving DecidableEq

/-- Python list comprehension `[chunks_dict[i] for i in l]`: `none`
models the `KeyError` raised when some index is missing. -/
def collectChunks (f : Nat → Option String) : List Nat → Option (List String)
  | [] => some []
  | i :: is =>
    match f i, collectChunks f is with
    | some v, some vs => some (v :: vs)
    | _, _ => none

/-- Websocket handler `handle_pdf_chunk`, restricted to an already
loaded config entry (the `hass.data` lookup and `isinstance` guards
answer an error reply without touching the entry).  The returned flag is
`true` when the handler reached `connection.send_result` and `false`
when reassembly raised a `KeyError`; mutations performed before the
raise are kept in the returned entry state. -/
def handle_pdf_chunk (ed : EntryData) (m : ChunkMsg) : EntryData × Bool :=
  let buf := (alookup m.request_id ed.pdf_chunks).getD
    { chunks := [], total_chunks := m.total_chunks }
  let buf2 : ChunkBuffer := { buf with chunks := ainsert m.chunk_index m.data buf.chunks }
  let stored := ainsert m.request_id buf2 ed.pdf_chunks
  if buf2.chunks.length = m.total_chunks then
    match collectChunks (fun i => alookup i buf2.chunks) (List.range m.total_chunks) with
    | none => ({ ed with pdf_chunks := stored }, false)
    | some parts =>
      let base64_pdf := String.join parts
      let fut2 :=
        match ed.pdf_future with
        | some Fut.pending => some (Fut.resolved base64_pdf)
        | f => f
      ({ ed with pdf_chunks := adelete m.request_id stored, pdf_future := fut2 }, true)
  else ({ ed with pdf_chunks := stored }, true)

/-- Sequential processing of several `is_around/pdf_chunk` messages; the
flag stays `true` only when no handler invocation raised. -/
def run_pdf_chunks (st : EntryData × Bool) (ms : List ChunkMsg) : EntryData × Bool :=
  ms.foldl
    (fun acc m =>
      let r := handle_pdf_chunk acc.1 m
      (r.1, acc.2 && r.2))
    st

/-- Value stored under chunk index `i` after processing `ms` in order
(the data of the last message with that index). -/
def lastVal (ms : List ChunkMsg) (i : Nat) : Option String :=
  ms.foldl (fun acc m => if m.chunk_index = i then some m.data else acc) none

/-- The set of distinct chunk indices occurring in `ms`. -/
def chunkIndexSet (ms : List ChunkMsg) : Finset Nat :=
  (ms.map ChunkMsg.chunk_index).toFinset

/-! ### Websocket handler `handle_update_state` (`__init__.py`) -/

/-- A dispatched update signal: signal name, state, attributes. -/
abbrev Signal := String × String × Attrs

/-- One value of `hass.data[DOMAIN]`: either a loaded entry dictionary
or one of the non-dictionary values stored in the same namespace (the
cached count and date entries), which the `isinstance` guards skip. -/
inductive DomainVal where
  | entry (d : EntryData)
  | other (tag : String)
deriving DecidableEq

abbrev DomainData := List (String × DomainVal)

/-- Top-level `is_around/update_state` message; optional schema fields
are `none` when absent. -/
structure UpdateStateMsg where
  entity_id : Option String := none
  state : Option String := none
  attributes : Option Attrs := none
  config_entry_id : Option String := none
  data : Option MsgData := none
deriving DecidableEq

/-- Substring tests `"weekly_schedule" in entity_id` and friends. -/
def headMatch : List Char → List Char → Bool
  | [], _ => true
  | _ :: _, [] => false
  | a :: as, b :: bs => a == b && headMatch as bs

def subMatch (pat : List Char) : List Char → Bool
  | [] => headMatch pat []
  | c :: rest => headMatch pat (c :: rest) || subMatch pat rest

def strContains (s pat : String) : Bool := subMatch pat.toList s.toList

/-- The `elif` chain shared by formats 1 and 2: stores the matching
state update on the entry and returns the dispatched signal. -/
def applyEntityUpdate (e : EntryData) (entryId entityId st : String)
    (attrs : Attrs) : EntryData × List Signal :=
  if strContains entityId "weekly_schedule" then
    ({ e with weekly_schedule_data := some ⟨st, attrs⟩ },
      [(DOMAIN ++ "_" ++ entryId ++ "_update_weekly_schedule", st, attrs)])
  else if strContains entityId "lessons" then
    ({ e with lessons_data := some ⟨st, attrs⟩ },
      [(DOMAIN ++ "_" ++ entryId ++ "_update_lessons", st, attrs)])
  else if strContains entityId "memorials" then
    ({ e with memorials_data := some ⟨st, attrs⟩ },
      [(DOMAIN ++ "_" ++ entryId ++ "_update_memorials", st, attrs)])
  else if strContains entityId "messages" then
    ({ e with messages_data := some ⟨st, attrs⟩ },
      [(DOMAIN ++ "_" ++ entryId ++ "_update_messages", st, attrs)])
  else (e, [])

/-- Format 1 and format 3 helper: mutate the single entry stored under
`cid` when it is loaded and is a dictionary, otherwise do nothing. -/
def update_one_entry (dd : DomainData) (cid : String)
    (f : EntryData → EntryData × List Signal) : DomainData × List Signal :=
  match alookup cid dd with
  | some (.entry e) =>
    let r := f e
    (dd.map (fun p => if p.1 = cid then (p.1, DomainVal.entry r.1) else p), r.2)
  | _ => (dd, [])

/-- Format 2 (legacy) body: iterate over every value of
`hass.data[DOMAIN]`, skipping non-dictionary values; `none` models the
`KeyError` on `msg["state"]`. -/
def legacy_update (dd : DomainData) (entityId : String) (st : Option String)
    (attrs : Option Attrs) : Option (DomainData × List Signal) :=
  match st with
  | none => none
  | some s =>
    let a := attrs.getD []
    let results := dd.map (fun p =>
      match p.2 with
      | .entry e =>
        let r := applyEntityUpdate e p.1 entityId s a
        ((p.1, DomainVal.entry r.1), r.2)
      | .other t => ((p.1, DomainVal.other t), ([] : List Signal)))
    some (results.map Prod.fst, (results.map Prod.snd).flatten)

/-- Format 3 body: store the observances data on the named entry and
resolve a pending `observances_future`. -/
def observances_update (dd : DomainData) (cid : String) (d : MsgData) :
    DomainData × List Signal :=
  update_one_entry dd cid (fun e =>
    ({ e with
        observances_data := some d,
        observances_future :=
          match e.observances_future with
          | some Fut.pending => some (Fut.resolved d)
          | f => f }, []))

/-- Websocket handler `handle_update_state`: the three-way format
dispatch.  `none` models a `KeyError` on a required nested field. -/
def handle_update_state (dd : DomainData) (msg : UpdateStateMsg) :
    Option (DomainData × List Signal) :=
  match msg.config_entry_id, msg.data with
  | some cid, some d =>
    match d.entity_id with
    | some eid =>
      match d.state with
      | none => none
      | some s =>
        some (update_one_entry dd cid
          (fun e => applyEntityUpdate e cid eid s (d.attributes.getD [])))
    | none =>
      match msg.entity_id with
      | some topEid => legacy_update dd topEid msg.state msg.attributes
      | none => some (observances_update dd cid d)
  | _, _ =>
    match msg.entity_id with
    | some topEid => legacy_update dd topEid msg.state msg.attributes
    | none => some (dd, [])

/-- Python truthiness test `not self._username or not self._password`
from `handle_401`: missing credentials are `None` or the empty string. -/
def credsMissing (c : Connector) : Bool :=
  match c.username, c.password with
  | some u, some p => u.isEmpty || p.isEmpty
  | _, _ => true

/-! ## Theorems -/

theorem authenticate_username_eq (c : Connector) (u p : String)
    (resp : Option (Nat × List (String × String))) :
    (c.authenticate u p resp).1.username = some u := by
  rcases resp with _ | ⟨st, ck⟩
  · rfl
  · by_cases h : st = 200 <;> simp [Connector.authenticate, h]

theorem authenticate_password_eq (c : Connector) (u p : String)
    (resp : Option (Nat × List (String × String))) :
    (c.authenticate u p resp).1.password = some p := by
  rcases resp with _ | ⟨st, ck⟩
  · rfl
  · by_cases h : st = 200 <;> simp [Connector.authenticate, h]

theorem authenticate_true_iff (c : Connector) (u p : String)
    (resp : Option (Nat × List (String × String))) :
    (c.authenticate u p resp).2 = true ↔ ∃ ck, resp = some (200, ck) := by
  rcases resp with _ | ⟨st, ck⟩
  · simp [Connector.authenticate]
  · by_cases h : st = 200 <;>
      simp [Connector.authenticate, h, Prod.ext_iff]

theorem handle_401_authArgs_eq {α : Type} (c : Connector) (u p : String)
    (call2 : CallResult α) (ar : Option (Nat × List (String × String)))
    (hu : c.username = some u) (hp : c.password = some p)
    (hue : u.isEmpty = false) (hpe : p.isEmpty = false) :
    (handle_401 c (.err 401) call2 ar).authArgs = some (u, p) := by
  cases h2 : (c.authenticate u p ar).2 <;>
    simp [handle_401, hu, hp, hue, hpe, h2]

/-- C8: `test_connection` returns `True` exactly for a GET of the
observances endpoint with status 200, 401 or 403; any other status and
any raised exception yield `False` instead of propagating. -/
theorem C8_test_connection_statuses (c : Connector) (http : String → Option Nat) :
    c.test_connection http = true ↔
      http c.observancesUrl = some 200 ∨ http c.observancesUrl = some 401 ∨
        http c.observancesUrl = some 403 := by
  rcases h : http c.observancesUrl with _ | st <;>
    simp [Connector.test_connection, h, or_assoc]

/-- C9: `authenticate(u, p)` stores `u` and `p` as the connector
credentials no matter how the request ends, returns `True` exactly on a
200 response and `False` on any other status or raised exception, and a
later 401 re-authentication passes exactly those most recently attempted
credentials to `authenticate`. -/
theorem C9_authenticate_stores_credentials (c : Connector) (u p : String)
    (resp : Option (Nat × List (String × String))) :
    (c.authenticate u p resp).1.username = some u ∧
    (c.authenticate u p resp).1.password = some p ∧
    ((c.authenticate u p resp).2 = true ↔ ∃ ck, resp = some (200, ck)) ∧
    (∀ (call2 : CallResult Nat) (authResp2 : Option (Nat × List (String × String))),
      u.isEmpty = false → p.isEmpty = false →
      (handle_401 ((c.authenticate u p resp).1) (.err 401) call2 authResp2).authArgs =
        some (u, p)) :=
  ⟨authenticate_username_eq c u p resp, authenticate_password_eq c u p resp,
    authenticate_true_iff c u p resp,
    fun call2 ar2 hue hpe =>
      handle_401_authArgs_eq _ u p call2 ar2
        (authenticate_username_eq c u p resp)
        (authenticate_password_eq c u p resp) hue hpe⟩

/-- C9 witness at concrete inputs: failed authentication with status 404
still stores the attempted credentials and a later re-authentication
uses them. -/
theorem C9_witness :
    (handle_401 ((Connector.init "u").authenticate "a" "b" (some (404, []))).1
        (.err 401) (.ok 3) none).authArgs = some ("a", "b") :=
  (C9_authenticate_stores_credentials (Connector.init "u") "a" "b"
    (some (404, []))).2.2.2 (.ok 3) none rfl rfl

/-- C2: a 401 from the first call of a `handle_401`-wrapped method with
stored credentials triggers exactly one re-authentication with those
credentials; on success the original call is retried exactly once and a
401 from the retried call propagates without another re-authentication,
while missing credentials or a failed re-authentication re-raise the
original 401. -/
theorem C2_handle_401_retry_behavior {α : Type} :
    (∀ (c : Connector) (u p : String) (call2 : CallResult α)
        (authResp : Option (Nat × List (String × String))),
      c.username = some u → c.password = some p →
      u.isEmpty = false → p.isEmpty = false →
      (((c.authenticate u p authResp).2 = true →
          handle_401 c (.err 401) call2 authResp =
            ⟨liftCall call2, (c.authenticate u p authResp).1, 1, some (u, p), 2⟩ ∧
          (call2 = .err 401 →
            (handle_401 c (.err 401) call2 authResp).result = .raised 401 ∧
            (handle_401 c (.err 401) call2 authResp).authCalls = 1)) ∧
        ((c.authenticate u p authResp).2 = false →
          handle_401 c (.err 401) call2 authResp =
            ⟨.raised 401, (c.authenticate u p authResp).1, 1, some (u, p), 1⟩))) ∧
    (∀ (c : Connector) (call2 : CallResult α)
        (authResp : Option (Nat × List (String × String))),
      credsMissing c = true →
      handle_401 c (.err 401) call2 authResp = ⟨.raised 401, c, 0, none, 1⟩) := by
  constructor
  · intro c u p call2 authResp hu hp hue hpe
    constructor
    · intro hauth
      constructor
      · simp [handle_401, hu, hp, hue, hpe, hauth]
      · intro hc2
        subst hc2
        simp [handle_401, hu, hp, hue, hpe, hauth, liftCall]
    · intro hauth
      simp [handle_401, hu, hp, hue, hpe, hauth]
  · intro c call2 authResp h
    rcases hcu : c.username with _ | u <;> rcases hcp : c.password with _ | p <;>
      simp only [credsMissing, hcu, hcp] at h <;>
      simp [handle_401, hcu, hcp, h]

/-- C2 witness at concrete inputs: first call raises 401, stored
credentials re-authenticate successfully, retried call returns. -/
theorem C2_witness :
    handle_401 (α := Nat)
        { app_url := "u", username := some "a", password := some "b" }
        (.err 401) (.ok 7) (some (200, [])) =
      ⟨liftCall (.ok 7),
        (({ app_url := "u", username := some "a", password := some "b" } :
            Connector).authenticate "a" "b" (some (200, []))).1,
        1, some ("a", "b"), 2⟩ :=
  (((C2_handle_401_retry_behavior (α := Nat)).1
      { app_url := "u", username := some "a", password := some "b" }
      "a" "b" (.ok 7) (some (200, [])) rfl rfl rfl rfl).1 rfl).1

/-- C6: a `ClientResponseError` with a status other than 401 is
re-raised unchanged by `handle_401`, with no re-authentication and no
retry. -/
theorem C6_non_401_propagates {α : Type} (c : Connector) (status : Nat)
    (call2 : CallResult α) (authResp : Option (Nat × List (String × String)))
    (h : status ≠ 401) :
    handle_401 c (.err status) call2 authResp = ⟨.raised status, c, 0, none, 1⟩ := by
  simp [handle_401, h]

/-- C6 witness: a 500 propagates unchanged with zero re-authentications
and a single invocation of the wrapped function. -/
theorem C6_witness :
    handle_401 (α := Nat) (Connector.init "u") (.err 500) (.ok 0) none =
      ⟨.raised 500, Connector.init "u", 0, none, 1⟩ :=
  C6_non_401_propagates _ _ _ _ (by decide)

/-- C3: a run of `async_setup_entry` that returns `True` registers
exactly the four domain services `print_next_observance`,
`test_connection`, `send_attendance` and `request_resend`, and the three
websocket commands `is_around/update_state`, `is_around/pdf_chunk` and
`is_around/operation_result`. -/
theorem C3_setup_registers_services_and_commands :
    async_setup_entry_registrations.services =
      [("is_around_connector", "print_next_observance"),
        ("is_around_connector", "test_connection"),
        ("is_around_connector", "send_attendance"),
        ("is_around_connector", "request_resend")] ∧
    async_setup_entry_registrations.wsCommands =
      ["is_around/update_state", "is_around/pdf_chunk",
        "is_around/operation_result"] :=
  ⟨rfl, rfl⟩

/-- C7: in the coordinator update, a timeout waiting for the observances
or the stats response makes the update return `None` without raising,
while any other exception raised while communicating with the server is
surfaced as `UpdateFailed` wrapping the original exception. -/
theorem C7_coordinator_error_handling {α : Type} (d : String) (slots : EntrySlots)
    (statsWait : WaitOutcome α) (obs : ObsData) (e : String) :
    (coordinator_update (some d) slots .timedOut statsWait).outcome = .ok none ∧
    (coordinator_update (some d) slots (WaitOutcome.failure e) statsWait).outcome =
      .updateFailed ("Error communicating with server: " ++ e) e ∧
    (coordinator_update (some d) slots (.success obs)
        (.timedOut : WaitOutcome α)).outcome = .ok none ∧
    (coordinator_update (some d) slots (.success obs)
        (WaitOutcome.failure e : WaitOutcome α)).outcome =
      (if obsStale obs d then .ok none
        else .updateFailed ("Error communicating with server: " ++ e) e) := by
  refine ⟨rfl, rfl, ?_, ?_⟩ <;>
    by_cases hs : obsStale obs d <;> simp [coordinator_update, hs]

/-- C4: each request path stores a fresh future under its correlation
key before firing the request and pops the key whether the wait
succeeds, times out or fails, so at most one future per key is in flight
along every run and an entry that starts with no stored futures ends
with none. -/
theorem C4_future_slot_lifecycle {α : Type} :
    (∀ (slots : EntrySlots) (obsData : Option ObsData) (pdfWait : WaitOutcome String),
      uniqueInFlight (print_next_observance_run slots obsData pdfWait).2.1 = true ∧
      firesAfterSet [] (print_next_observance_run slots obsData pdfWait).2.1 = true ∧
      (print_next_observance_run ⟨false, false, false⟩ obsData pdfWait).1 =
        ⟨false, false, false⟩) ∧
    (∀ (slots : EntrySlots) (obsData : Option ObsData) (opWait : WaitOutcome α),
      uniqueInFlight (send_attendance_run slots obsData opWait).2.1 = true ∧
      firesAfterSet [] (send_attendance_run slots obsData opWait).2.1 = true ∧
      (send_attendance_run ⟨false, false, false⟩ obsData opWait).1 =
        ⟨false, false, false⟩) ∧
    (∀ (storedDate : Option String) (slots : EntrySlots)
        (obsWait : WaitOutcome ObsData) (statsWait : WaitOutcome α),
      uniqueInFlight (coordinator_update storedDate slots obsWait statsWait).trace = true ∧
      firesAfterSet [] (coordinator_update storedDate slots obsWait statsWait).trace = true ∧
      (coordinator_update storedDate ⟨false, false, false⟩ obsWait statsWait).slots =
        ⟨false, false, false⟩) := by
  refine ⟨?_, ?_, ?_⟩
  · intro slots obsData pdfWait
    refine ⟨?_, ?_, ?_⟩ <;>
      · unfold print_next_observance_run
        repeat' split
        all_goals rfl
  · intro slots obsData opWait
    refine ⟨?_, ?_, ?_⟩ <;>
      · unfold send_attendance_run
        repeat' split
        all_goals rfl
  · intro storedDate slots obsWait statsWait
    refine ⟨?_, ?_, ?_⟩ <;>
      · unfold coordinator_update
        repeat' split
        all_goals rfl

/-- C5: every wait on a correlation future, in the print handler, the
send-attendance handler and both coordinator waits, uses the fixed
timeout `RESPONSE_TIMEOUT = 30`, and each full request path actually
performs such a wait. -/
theorem C5_every_wait_uses_30s {α : Type} :
    RESPONSE_TIMEOUT = 30 ∧
    (∀ (slots : EntrySlots) (obsData : Option ObsData) (pdfWait : WaitOutcome String),
      allWaits30 (print_next_observance_run slots obsData pdfWait).2.1 = true) ∧
    (∀ (slots : EntrySlots) (obsData : Option ObsData) (opWait : WaitOutcome α),
      allWaits30 (send_attendance_run slots obsData opWait).2.1 = true) ∧
    (∀ (storedDate : Option String) (slots : EntrySlots)
        (obsWait : WaitOutcome ObsData) (statsWait : WaitOutcome α),
      allWaits30 (coordinator_update storedDate slots obsWait statsWait).trace = true) ∧
    (∀ (slots : EntrySlots) (pdfWait : WaitOutcome String),
      (print_next_observance_run slots
          (some ⟨true, some ⟨true, some "2025-01-01"⟩⟩) pdfWait).2.1 =
        [.setSlot "pdf_future", .fire "request_pdf",
          .waitSlot "pdf_future" RESPONSE_TIMEOUT, .popSlot "pdf_future"]) ∧
    (∀ (slots : EntrySlots) (opWait : WaitOutcome α),
      (send_attendance_run slots
          (some ⟨true, some ⟨true, some "2025-01-01"⟩⟩) opWait).2.1 =
        [.setSlot "operation_future", .fire "request_attendance_push",
          .waitSlot "operation_future" RESPONSE_TIMEOUT,
          .popSlot "operation_future"]) ∧
    (∀ (slots : EntrySlots) (statsWait : WaitOutcome α),
      (coordinator_update (some "2025-01-01") slots
          (.success ⟨true, some ⟨true, some "2025-01-01"⟩⟩) statsWait).trace =
        [.setSlot "observances_future", .fire "request_observances",
          .waitSlot "observances_future" RESPONSE_TIMEOUT,
          .popSlot "observances_future",
          .setSlot "operation_future", .fire "request_attendance_stats",
          .waitSlot "operation_future" RESPONSE_TIMEOUT,
          .popSlot "operation_future"]) := by
  refine ⟨rfl, ?_, ?_, ?_, ?_, ?_, ?_⟩
  · intro slots obsData pdfWait
    unfold print_next_observance_run
    repeat' split
    all_goals rfl
  · intro slots obsData opWait
    unfold send_attendance_run
    repeat' split
    all_goals rfl
  · intro storedDate slots obsWait statsWait
    unfold coordinator_update
    repeat' split
    all_goals rfl
  · intro slots pdfWait
    cases pdfWait <;> rfl
  · intro slots opWait
    cases opWait <;> rfl
  · intro slots statsWait
    cases statsWait <;> rfl

/-! ### Association-list lemmas used by the PDF chunk proofs -/

theorem alookup_ainsert_self {α β : Type} [DecidableEq α] (k : α) (v : β)
    (l : List (α × β)) : alookup k (ainsert k v l) = some v := by
  simp [ainsert, alookup]

theorem filter_ne_cons_drop {α β : Type} [DecidableEq α] (k : α) (p : α × β)
    (t : List (α × β)) (h : p.1 = k) :
    (p :: t).filter (fun q => decide (q.1 ≠ k)) =
      t.filter (fun q => decide (q.1 ≠ k)) := by
  rw [List.filter_cons, if_neg]
  simp [h]

theorem filter_ne_cons_keep {α β : Type} [DecidableEq α] (k : α) (p : α × β)
    (t : List (α × β)) (h : ¬p.1 = k) :
    (p :: t).filter (fun q => decide (q.1 ≠ k)) =
      p :: t.filter (fun q => decide (q.1 ≠ k)) := by
  rw [List.filter_cons, if_pos]
  simp [h]

theorem alookup_filter_ne {α β : Type} [DecidableEq α] (k j : α)
    (l : List (α × β)) (h : j ≠ k) :
    alookup j (l.filter (fun p => decide (p.1 ≠ k))) = alookup j l := by
  induction l with
  | nil => rfl
  | cons p t ih =>
    by_cases hpk : p.1 = k
    · have hpj : ¬p.1 = j := fun hc => h (by rw [← hc, hpk])
      rw [filter_ne_cons_drop k p t hpk, ih]
      rw [show alookup j (p :: t) =
        (if p.1 = j then some p.2 else alookup j t) from rfl, if_neg hpj]
    · rw [filter_ne_cons_keep k p t hpk]
      show (if p.1 = j then some p.2
        else alookup j (t.filter (fun q => decide (q.1 ≠ k)))) =
        (if p.1 = j then some p.2 else alookup j t)
      by_cases hpj : p.1 = j
      · rw [if_pos hpj, if_pos hpj]
      · rw [if_neg hpj, if_neg hpj]
        exact ih

theorem alookup_ainsert_ne {α β : Type} [DecidableEq α] (k j : α) (v : β)
    (l : List (α × β)) (h : j ≠ k) :
    alookup j (ainsert k v l) = alookup j l := by
  have hkj : ¬k = j := fun hc => h hc.symm
  show (if k = j then some v else
    alookup j (l.filter (fun p => decide (p.1 ≠ k)))) = alookup j l
  rw [if_neg hkj]
  exact alookup_filter_ne k j l h

theorem alookup_adelete_self {α β : Type} [DecidableEq α] (k : α)
    (l : List (α × β)) : alookup k (adelete k l) = none := by
  induction l with
  | nil => rfl
  | cons p t ih =>
    by_cases hpk : p.1 = k <;> simp [adelete, alookup, hpk] at ih ⊢ <;>
      simpa [adelete] using ih

theorem mem_akeys_filter {α β : Type} [DecidableEq α] (k a : α)
    (l : List (α × β)) :
    a ∈ akeys (l.filter (fun p => decide (p.1 ≠ k))) ↔ a ∈ akeys l ∧ a ≠ k := by
  simp only [akeys, List.mem_map, List.mem_filter, decide_eq_true_eq]
  constructor
  · rintro ⟨p, ⟨hp, hne⟩, rfl⟩
    exact ⟨⟨p, hp, rfl⟩, hne⟩
  · rintro ⟨⟨p, hp, rfl⟩, hne⟩
    exact ⟨p, ⟨hp, hne⟩, rfl⟩

theorem mem_akeys_ainsert {α β : Type} [DecidableEq α] (k a : α) (v : β)
    (l : List (α × β)) :
    a ∈ akeys (ainsert k v l) ↔ a = k ∨ a ∈ akeys l := by
  simp only [ainsert, akeys, List.map_cons, List.mem_cons]
  rw [show (l.filter (fun p => decide (p.1 ≠ k))).map Prod.fst =
      akeys (l.filter (fun p => decide (p.1 ≠ k))) from rfl]
  rw [mem_akeys_filter]
  by_cases hak : a = k <;> simp [hak, akeys]

theorem nodup_akeys_ainsert {α β : Type} [DecidableEq α] (k : α) (v : β)
    (l : List (α × β)) (h : (akeys l).Nodup) :
    (akeys (ainsert k v l)).Nodup := by
  simp only [ainsert, akeys, List.map_cons, List.nodup_cons]
  refine ⟨?_, ?_⟩
  · intro hmem
    exact ((mem_akeys_filter k k l).1 hmem).2 rfl
  · exact h.sublist ((List.filter_sublist l).map Prod.fst)

theorem length_ainsert {α β : Type} [DecidableEq α] (k : α) (v : β)
    (l : List (α × β)) (h : (akeys l).Nodup) :
    (ainsert k v l).length = if k ∈ akeys l then l.length else l.length + 1 := by
  induction l with
  | nil => simp [ainsert, akeys]
  | cons p t ih =>
    simp only [akeys, List.map_cons, List.nodup_cons] at h
    by_cases hpk : p.1 = k
    · have hknot : k ∉ akeys t := hpk ▸ h.1
      have hfilter : t.filter (fun q => decide (q.1 ≠ k)) = t :=
        List.filter_eq_self.mpr (fun q hq => by
          simp only [decide_eq_true_eq]
          intro hqk
          exact hknot (by rw [← hqk]; exact List.mem_map_of_mem Prod.fst hq))
      have hmem : k ∈ akeys (p :: t) := by
        simp [akeys, hpk]
      rw [if_pos hmem]
      show ((k, v) :: (p :: t).filter (fun q => decide (q.1 ≠ k))).length =
        (p :: t).length
      rw [filter_ne_cons_drop k p t hpk, hfilter]
      simp
    · have hlen : (ainsert k v (p :: t)).length = (ainsert k v t).length + 1 := by
        show ((k, v) :: (p :: t).filter (fun q => decide (q.1 ≠ k))).length =
          ((k, v) :: t.filter (fun q => decide (q.1 ≠ k))).length + 1
        rw [filter_ne_cons_keep k p t hpk]
        simp
      rw [hlen, ih h.2]
      have hmem : k ∈ akeys (p :: t) ↔ k ∈ akeys t := by
        simp [akeys, Ne.symm hpk]
      by_cases hk : k ∈ akeys t <;>
        simp [hk, hmem, List.length_cons]

theorem alookup_isSome_iff_mem_akeys {α β : Type} [DecidableEq α] (a : α)
    (l : List (α × β)) : (alookup a l).isSome = true ↔ a ∈ akeys l := by
  induction l with
  | nil => simp [alookup, akeys]
  | cons p t ih =>
    by_cases hpa : p.1 = a
    · simp [alookup, akeys, hpa]
    · have h1 : alookup a (p :: t) = alookup a t := by
        show (if p.1 = a then some p.2 else alookup a t) = alookup a t
        rw [if_neg hpa]
      have h2 : a ∈ akeys (p :: t) ↔ a ∈ akeys t := by
        show a ∈ p.1 :: akeys t ↔ a ∈ akeys t
        constructor
        · intro hmem
          rcases List.mem_cons.mp hmem with hc | hm
          · exact absurd hc.symm hpa
          · exact hm
        · exact fun hm => List.mem_cons_of_mem _ hm
      rw [h1, h2]
      exact ih

theorem collectChunks_all_some (f : Nat → Option String) (l : List Nat)
    (h : ∀ i ∈ l, (f i).isSome = true) :
    collectChunks f l = some (l.map (fun i => (f i).getD "")) := by
  induction l with
  | nil => rfl
  | cons i t ih =>
    obtain ⟨v, hv⟩ := Option.isSome_iff_exists.mp (h i (List.mem_cons_self i t))
    rw [List.map_cons]
    simp only [collectChunks, hv, ih (fun j hj => h j (List.mem_cons_of_mem i hj)),
      Option.getD_some]

theorem lastVal_append_single (p : List ChunkMsg) (x : ChunkMsg) (i : Nat) :
    lastVal (p ++ [x]) i =
      if x.chunk_index = i then some x.data else lastVal p i := by
  simp [lastVal, List.foldl_append]

theorem chunkIndexSet_append_single (q : List ChunkMsg) (x : ChunkMsg) :
    chunkIndexSet (q ++ [x]) = insert x.chunk_index (chunkIndexSet q) := by
  ext a
  simp [chunkIndexSet, or_comm]

theorem run_pdf_chunks_append (st : EntryData × Bool) (ms : List ChunkMsg)
    (m : ChunkMsg) :
    run_pdf_chunks st (ms ++ [m]) =
      ((handle_pdf_chunk (run_pdf_chunks st ms).1 m).1,
        (run_pdf_chunks st ms).2 && (handle_pdf_chunk (run_pdf_chunks st ms).1 m).2) := by
  simp [run_pdf_chunks, List.foldl_append]

/-! ### PDF reassembly lemmas -/

theorem handle_pdf_chunk_progress (ed : EntryData) (m : ChunkMsg) (b : ChunkBuffer)
    (h : (alookup m.request_id ed.pdf_chunks).getD
      { chunks := [], total_chunks := m.total_chunks } = b)
    (hlen : (ainsert m.chunk_index m.data b.chunks).length ≠ m.total_chunks) :
    handle_pdf_chunk ed m =
      ({ ed with
          pdf_chunks := ainsert m.request_id
            (ChunkBuffer.mk (ainsert m.chunk_index m.data b.chunks) b.total_chunks)
            ed.pdf_chunks },
        true) := by
  simp only [handle_pdf_chunk]
  rw [h, if_neg hlen]

theorem handle_pdf_chunk_complete (ed : EntryData) (m : ChunkMsg) (b : ChunkBuffer)
    (parts : List String)
    (h : (alookup m.request_id ed.pdf_chunks).getD
      { chunks := [], total_chunks := m.total_chunks } = b)
    (hlen : (ainsert m.chunk_index m.data b.chunks).length = m.total_chunks)
    (hcol : collectChunks (fun i => alookup i (ainsert m.chunk_index m.data b.chunks))
      (List.range m.total_chunks) = some parts) :
    handle_pdf_chunk ed m =
      ({ ed with
          pdf_chunks := adelete m.request_id (ainsert m.request_id
            (ChunkBuffer.mk (ainsert m.chunk_index m.data b.chunks) b.total_chunks)
            ed.pdf_chunks),
          pdf_future :=
            match ed.pdf_future with
            | some Fut.pending => some (Fut.resolved (String.join parts))
            | f => f },
        true) := by
  simp only [handle_pdf_chunk]
  rw [h, if_pos hlen, hcol]

theorem chunk_insert_facts (x : ChunkMsg) (q : List ChunkMsg)
    (cd : List (Nat × String))
    (hnodup : (akeys cd).Nodup)
    (hmem : ∀ i, i ∈ akeys cd ↔ i ∈ q.map ChunkMsg.chunk_index)
    (hlook : ∀ i, alookup i cd = lastVal q i)
    (hlen : cd.length = (chunkIndexSet q).card) :
    (akeys (ainsert x.chunk_index x.data cd)).Nodup ∧
    (∀ i, i ∈ akeys (ainsert x.chunk_index x.data cd) ↔
      i ∈ (q ++ [x]).map ChunkMsg.chunk_index) ∧
    (∀ i, alookup i (ainsert x.chunk_index x.data cd) = lastVal (q ++ [x]) i) ∧
    (ainsert x.chunk_index x.data cd).length = (chunkIndexSet (q ++ [x])).card := by
  refine ⟨nodup_akeys_ainsert _ _ _ hnodup, ?_, ?_, ?_⟩
  · intro i
    rw [mem_akeys_ainsert]
    simp only [List.map_append, List.mem_append, List.map_cons, List.map_nil,
      List.mem_singleton]
    rw [hmem i]
    constructor
    · rintro (rfl | hq2)
      · exact Or.inr rfl
      · exact Or.inl hq2
    · rintro (hq2 | rfl)
      · exact Or.inr hq2
      · exact Or.inl rfl
  · intro i
    rw [lastVal_append_single]
    by_cases hix : x.chunk_index = i
    · subst hix
      rw [alookup_ainsert_self, if_pos rfl]
    · rw [alookup_ainsert_ne _ _ _ _ (fun hc => hix hc.symm), if_neg hix]
      exact hlook i
  · rw [length_ainsert _ _ _ hnodup, chunkIndexSet_append_single]
    by_cases hx2 : x.chunk_index ∈ akeys cd
    · rw [if_pos hx2, hlen]
      have hin : x.chunk_index ∈ chunkIndexSet q := by
        rw [chunkIndexSet, List.mem_toFinset]
        exact (hmem _).1 hx2
      rw [Finset.insert_eq_self.mpr hin]
    · rw [if_neg hx2, hlen]
      have hnotin : x.chunk_index ∉ chunkIndexSet q := by
        rw [chunkIndexSet, List.mem_toFinset]
        exact fun hc => hx2 ((hmem _).2 hc)
      rw [Finset.card_insert_of_not_mem hnotin]

theorem pdf_run_inv (r : String) (T : Nat) (ed0 : EntryData) (p : List ChunkMsg) :
    (∀ x ∈ p, x.request_id = r ∧ x.total_chunks = T ∧ x.chunk_index < T) →
    (chunkIndexSet p).card < T →
    alookup r ed0.pdf_chunks = none →
    ∃ ed, run_pdf_chunks (ed0, true) p = (ed, true) ∧
      ed.pdf_future = ed0.pdf_future ∧
      ((p = [] ∧ ed = ed0) ∨
        (∃ buf, alookup r ed.pdf_chunks = some buf ∧
          (akeys buf.chunks).Nodup ∧
          (∀ i, i ∈ akeys buf.chunks ↔ i ∈ p.map ChunkMsg.chunk_index) ∧
          (∀ i, alookup i buf.chunks = lastVal p i) ∧
          buf.chunks.length = (chunkIndexSet p).card)) := by
  induction p using List.reverseRecOn with
  | nil =>
    intro _ _ _
    exact ⟨ed0, rfl, rfl, Or.inl ⟨rfl, rfl⟩⟩
  | append_singleton q x ih =>
    intro hshare hcard h0
    have hshareq : ∀ y ∈ q, y.request_id = r ∧ y.total_chunks = T ∧ y.chunk_index < T :=
      fun y hy => hshare y (List.mem_append_left _ hy)
    have hx : x.request_id = r ∧ x.total_chunks = T ∧ x.chunk_index < T :=
      hshare x (List.mem_append_right _ (List.mem_singleton_self x))
    have hsub : chunkIndexSet q ⊆ chunkIndexSet (q ++ [x]) := by
      rw [chunkIndexSet_append_single]
      exact Finset.subset_insert _ _
    have hcardq : (chunkIndexSet q).card < T :=
      lt_of_le_of_lt (Finset.card_le_card hsub) hcard
    obtain ⟨ed, hrun, hfut, hinv⟩ := ih hshareq hcardq h0
    have hbuffacts : ∃ b : ChunkBuffer,
        (alookup x.request_id ed.pdf_chunks).getD
          { chunks := [], total_chunks := x.total_chunks } = b ∧
        (akeys b.chunks).Nodup ∧
        (∀ i, i ∈ akeys b.chunks ↔ i ∈ q.map ChunkMsg.chunk_index) ∧
        (∀ i, alookup i b.chunks = lastVal q i) ∧
        b.chunks.length = (chunkIndexSet q).card := by
      rcases hinv with ⟨hq, hed⟩ | ⟨buf, hbuf, h1, h2, h3, h4⟩
      · subst hq
        subst hed
        refine ⟨⟨[], x.total_chunks⟩, ?_, ?_, ?_, ?_, ?_⟩
        · rw [hx.1, h0]
          rfl
        · simp [akeys]
        · intro i
          simp [akeys]
        · intro i
          rfl
        · simp [chunkIndexSet]
      · refine ⟨buf, ?_, h1, h2, h3, h4⟩
        rw [hx.1, hbuf]
        rfl
    obtain ⟨b, hb, hbn, hbm, hbl, hblen⟩ := hbuffacts
    obtain ⟨hn2, hm2, hl2, hlen2⟩ := chunk_insert_facts x q b.chunks hbn hbm hbl hblen
    have hlenne : (ainsert x.chunk_index x.data b.chunks).length ≠ x.total_chunks := by
      rw [hlen2, hx.2.1]
      exact Nat.ne_of_lt hcard
    have hstep := handle_pdf_chunk_progress ed x b hb hlenne
    refine ⟨{ ed with
        pdf_chunks := ainsert x.request_id
          (ChunkBuffer.mk (ainsert x.chunk_index x.data b.chunks) b.total_chunks)
          ed.pdf_chunks },
      ?_, hfut, Or.inr ⟨ChunkBuffer.mk (ainsert x.chunk_index x.data b.chunks) b.total_chunks,
        ?_, hn2, hm2, hl2, hlen2⟩⟩
    · rw [run_pdf_chunks_append, hrun, hstep]
      rfl
    · rw [hx.1]
      exact alookup_ainsert_self _ _ _

/-- C1 (amended): over any sequence of `is_around/pdf_chunk` messages
sharing a request id and a declared total, in which every chunk index
lies in `0..total_chunks-1`, the handler stores each chunk under its
index, and exactly when the number of distinct stored indices reaches
the declared total it resolves the pending `pdf_future` with the
concatenation of the chunks in index order and deletes the per-request
buffer; before that point the future stays pending. -/
theorem C1_pdf_chunk_reassembly (r : String) (T : Nat) (p : List ChunkMsg)
    (m : ChunkMsg) (ed0 : EntryData)
    (hshare : ∀ x ∈ p ++ [m],
      x.request_id = r ∧ x.total_chunks = T ∧ x.chunk_index < T)
    (h0 : alookup r ed0.pdf_chunks = none)
    (hfut : ed0.pdf_future = some Fut.pending)
    (hBefore : (chunkIndexSet p).card < T)
    (hDone : (chunkIndexSet (p ++ [m])).card = T) :
    (∀ q, q <+: p →
      (run_pdf_chunks (ed0, true) q).1.pdf_future = some Fut.pending ∧
      (run_pdf_chunks (ed0, true) q).2 = true) ∧
    (p ≠ [] → ∃ buf,
      alookup r (run_pdf_chunks (ed0, true) p).1.pdf_chunks = some buf ∧
      ∀ i, alookup i buf.chunks = lastVal p i) ∧
    (∃ ed2, run_pdf_chunks (ed0, true) (p ++ [m]) = (ed2, true) ∧
      ed2.pdf_future = some (Fut.resolved (String.join
        ((List.range T).map (fun i => (lastVal (p ++ [m]) i).getD "")))) ∧
      alookup r ed2.pdf_chunks = none) := by
  have hm : m.request_id = r ∧ m.total_chunks = T ∧ m.chunk_index < T :=
    hshare m (List.mem_append_right _ (List.mem_singleton_self m))
  have hsharep : ∀ x ∈ p, x.request_id = r ∧ x.total_chunks = T ∧ x.chunk_index < T :=
    fun x hx => hshare x (List.mem_append_left _ hx)
  have hpre : ∀ q, q <+: p →
      (run_pdf_chunks (ed0, true) q).1.pdf_future = some Fut.pending ∧
      (run_pdf_chunks (ed0, true) q).2 = true := by
    intro q hq
    have hshareq : ∀ x ∈ q, x.request_id = r ∧ x.total_chunks = T ∧ x.chunk_index < T :=
      fun x hxq => hsharep x (hq.sublist.subset hxq)
    have hsubq : chunkIndexSet q ⊆ chunkIndexSet p := by
      intro a ha
      rw [chunkIndexSet, List.mem_toFinset] at ha ⊢
      exact (hq.sublist.map ChunkMsg.chunk_index).subset ha
    have hcardq : (chunkIndexSet q).card < T :=
      lt_of_le_of_lt (Finset.card_le_card hsubq) hBefore
    obtain ⟨edq, hrunq, hfutq, _⟩ := pdf_run_inv r T ed0 q hshareq hcardq h0
    rw [hrunq]
    exact ⟨hfutq.trans hfut, rfl⟩
  obtain ⟨ed1, hrun1, hfut1, hinv⟩ := pdf_run_inv r T ed0 p hsharep hBefore h0
  refine ⟨hpre, ?_, ?_⟩
  · intro hne
    rcases hinv with ⟨hp, _⟩ | ⟨buf, hbuf, _, _, hlook, _⟩
    · exact absurd hp hne
    · rw [hrun1]
      exact ⟨buf, hbuf, hlook⟩
  · have hbuffacts : ∃ b : ChunkBuffer,
        (alookup m.request_id ed1.pdf_chunks).getD
          { chunks := [], total_chunks := m.total_chunks } = b ∧
        (akeys b.chunks).Nodup ∧
        (∀ i, i ∈ akeys b.chunks ↔ i ∈ p.map ChunkMsg.chunk_index) ∧
        (∀ i, alookup i b.chunks = lastVal p i) ∧
        b.chunks.length = (chunkIndexSet p).card := by
      rcases hinv with ⟨hp, hed⟩ | ⟨buf, hbuf, h1, h2, h3, h4⟩
      · subst hp
        subst hed
        refine ⟨⟨[], m.total_chunks⟩, ?_, ?_, ?_, ?_, ?_⟩
        · rw [hm.1, h0]
          rfl
        · simp [akeys]
        · intro i
          simp [akeys]
        · intro i
          rfl
        · simp [chunkIndexSet]
      · refine ⟨buf, ?_, h1, h2, h3, h4⟩
        rw [hm.1, hbuf]
        rfl
    obtain ⟨b, hb, hbn, hbm, hbl, hblen⟩ := hbuffacts
    obtain ⟨hn2, hm2, hl2, hlen2⟩ := chunk_insert_facts m p b.chunks hbn hbm hbl hblen
    have hlenT : (ainsert m.chunk_index m.data b.chunks).length = m.total_chunks := by
      rw [hlen2, hDone, hm.2.1]
    have hsetT : chunkIndexSet (p ++ [m]) = Finset.range T := by
      refine Finset.eq_of_subset_of_card_le ?_ (by rw [hDone, Finset.card_range])
      intro a ha
      rw [chunkIndexSet, List.mem_toFinset, List.mem_map] at ha
      obtain ⟨y, hy, hya⟩ := ha
      rw [Finset.mem_range, ← hya]
      exact (hshare y hy).2.2
    have hallsome : ∀ i ∈ List.range T,
        (alookup i (ainsert m.chunk_index m.data b.chunks)).isSome = true := by
      intro i hi
      rw [alookup_isSome_iff_mem_akeys, hm2 i]
      have hmemset : i ∈ chunkIndexSet (p ++ [m]) := by
        rw [hsetT, Finset.mem_range]
        exact List.mem_range.mp hi
      rw [chunkIndexSet, List.mem_toFinset] at hmemset
      exact hmemset
    have hcol := collectChunks_all_some
      (fun i => alookup i (ainsert m.chunk_index m.data b.chunks)) (List.range T) hallsome
    have hcol2 : collectChunks
        (fun i => alookup i (ainsert m.chunk_index m.data b.chunks))
        (List.range m.total_chunks) =
        some ((List.range T).map
          (fun i => (alookup i (ainsert m.chunk_index m.data b.chunks)).getD "")) := by
      rw [hm.2.1]
      exact hcol
    have hstep := handle_pdf_chunk_complete ed1 m b _ hb hlenT hcol2
    refine ⟨{ ed1 with
        pdf_chunks := adelete m.request_id (ainsert m.request_id
          (ChunkBuffer.mk (ainsert m.chunk_index m.data b.chunks) b.total_chunks)
          ed1.pdf_chunks),
        pdf_future :=
          match ed1.pdf_future with
          | some Fut.pending => some (Fut.resolved (String.join
              ((List.range T).map
                (fun i => (alookup i (ainsert m.chunk_index m.data b.chunks)).getD ""))))
          | f => f }, ?_, ?_, ?_⟩
    · rw [run_pdf_chunks_append, hrun1, hstep]
      rfl
    · have hparts : (List.range T).map
          (fun i => (alookup i (ainsert m.chunk_index m.data b.chunks)).getD "") =
          (List.range T).map (fun i => (lastVal (p ++ [m]) i).getD "") :=
        List.map_congr_left (fun i _ => by rw [hl2 i])
      show (match ed1.pdf_future with
        | some Fut.pending => some (Fut.resolved (String.join
            ((List.range T).map
              (fun i => (alookup i (ainsert m.chunk_index m.data b.chunks)).getD ""))))
        | f => f) =
        some (Fut.resolved (String.join
          ((List.range T).map (fun i => (lastVal (p ++ [m]) i).getD ""))))
      rw [hfut1.trans hfut, hparts]
    · show alookup r (adelete m.request_id (ainsert m.request_id
        (ChunkBuffer.mk (ainsert m.chunk_index m.data b.chunks) b.total_chunks)
        ed1.pdf_chunks)) = none
      rw [hm.1]
      exact alookup_adelete_self _ _

/-- C1 counterexample to the claim as frozen: a single message with
`chunk_index = 1` and `total_chunks = 1` makes the number of distinct
stored indices equal the declared total, yet the handler raises a
`KeyError` during reassembly (flag `false`), the pending `pdf_future` is
never resolved and the per-request buffer is not deleted. -/
theorem C1_counterexample :
    (handle_pdf_chunk { pdf_future := some Fut.pending }
      ⟨"req", 1, 1, "A"⟩).2 = false ∧
    (handle_pdf_chunk { pdf_future := some Fut.pending }
      ⟨"req", 1, 1, "A"⟩).1.pdf_future = some Fut.pending ∧
    alookup "req" (handle_pdf_chunk { pdf_future := some Fut.pending }
      ⟨"req", 1, 1, "A"⟩).1.pdf_chunks = some ⟨[(1, "A")], 1⟩ ∧
    (chunkIndexSet [⟨"req", 1, 1, "A"⟩]).card =
      (⟨"req", 1, 1, "A"⟩ : ChunkMsg).total_chunks := by
  refine ⟨rfl, rfl, rfl, rfl⟩

/-- C1 witness: two in-range chunks with total 2 complete on the second
message, resolving the pending future with the index-ordered
concatenation and deleting the buffer. -/
theorem C1_witness :
    ∃ ed2, run_pdf_chunks (({ pdf_future := some Fut.pending } : EntryData), true)
        ([⟨"r", 0, 2, "A"⟩] ++ [⟨"r", 1, 2, "B"⟩]) = (ed2, true) ∧
      ed2.pdf_future = some (Fut.resolved (String.join ((List.range 2).map
        (fun i => (lastVal ([⟨"r", 0, 2, "A"⟩] ++ [⟨"r", 1, 2, "B"⟩]) i).getD "")))) ∧
      alookup "r" ed2.pdf_chunks = none :=
  (C1_pdf_chunk_reassembly "r" 2 [⟨"r", 0, 2, "A"⟩] ⟨"r", 1, 2, "B"⟩
    { pdf_future := some Fut.pending } (by decide) rfl rfl (by decide)
    (by decide)).2.2

/-! ### Update-state lemmas -/

theorem alookup_map_set_ne (dd : DomainData) (cid k : String) (v : DomainVal)
    (h : k ≠ cid) :
    alookup k (dd.map (fun p => if p.1 = cid then (p.1, v) else p)) =
      alookup k dd := by
  induction dd with
  | nil => rfl
  | cons p t ih =>
    by_cases hp : p.1 = cid
    · have hck : ¬cid = k := fun hc => h hc.symm
      simp [alookup, hp, hck, ih]
    · by_cases hpk : p.1 = k
      · have hkc : ¬k = cid := h
        simp [alookup, hp, hpk, hkc]
      · simp [alookup, hp, hpk, ih]

theorem alookup_map_set_self (dd : DomainData) (cid : String) (v : DomainVal)
    (hsome : (alookup cid dd).isSome = true) :
    alookup cid (dd.map (fun p => if p.1 = cid then (p.1, v) else p)) =
      some v := by
  induction dd with
  | nil => simp [alookup] at hsome
  | cons p t ih =>
    by_cases hp : p.1 = cid
    · simp [alookup, hp]
    · have ht : (alookup cid t).isSome = true := by
        simpa [alookup, hp] using hsome
      simp [alookup, hp, ih ht]

theorem mem_map_set_of_ne (dd : DomainData) (cid : String) (v : DomainVal)
    (q : String × DomainVal) (hq : q ∈ dd) (hne : q.1 ≠ cid) :
    q ∈ dd.map (fun p => if p.1 = cid then (p.1, v) else p) := by
  have hfix : (fun p => if p.1 = cid then (p.1, v) else p) q = q := by
    simp [hne]
  rw [← hfix]
  exact List.mem_map_of_mem _ hq

theorem legacy_update_spec (dd : DomainData) (eid s : String) (a : Option Attrs) :
    ∃ dd2 sigs, legacy_update dd eid (some s) a = some (dd2, sigs) ∧
      dd2.length = dd.length ∧
      (∀ k e, (k, DomainVal.entry e) ∈ dd →
        (k, DomainVal.entry (applyEntityUpdate e k eid s (a.getD [])).1) ∈ dd2) ∧
      (∀ k t, (k, DomainVal.other t) ∈ dd → (k, DomainVal.other t) ∈ dd2) ∧
      sigs = (dd.map (fun p => match p.2 with
        | DomainVal.entry e => (applyEntityUpdate e p.1 eid s (a.getD [])).2
        | DomainVal.other _ => [])).flatten := by
  refine ⟨_, _, rfl, ?_, ?_, ?_, ?_⟩
  · simp [legacy_update]
  · intro k e hke
    exact List.mem_map_of_mem Prod.fst (List.mem_map_of_mem _ hke)
  · intro k t hkt
    exact List.mem_map_of_mem Prod.fst (List.mem_map_of_mem _ hkt)
  · rw [List.map_map]
    congr 1
    apply List.map_congr_left
    intro p _
    rcases p with ⟨k, v⟩
    cases v <;> rfl

/-- C10: an `is_around/update_state` message in the legacy format
(top-level `entity_id`, without the `config_entry_id` plus nested
`data.entity_id` combination) applies the matching state update and
dispatches the update signal on every loaded config entry whose stored
data is a dictionary, while a new-format message updates only the single
named config entry and does nothing when that entry is not loaded. -/
theorem C10_update_state_formats :
    (∀ (dd : DomainData) (eid s : String) (a : Option Attrs)
        (cfg : Option String) (dat : Option MsgData),
      (∀ cid d, cfg = some cid → dat = some d → d.entity_id = none) →
      ∃ dd2 sigs,
        handle_update_state dd
          { entity_id := some eid, state := some s, attributes := a,
            config_entry_id := cfg, data := dat } = some (dd2, sigs) ∧
        dd2.length = dd.length ∧
        (∀ k e, (k, DomainVal.entry e) ∈ dd →
          (k, DomainVal.entry (applyEntityUpdate e k eid s (a.getD [])).1) ∈ dd2) ∧
        (∀ k t, (k, DomainVal.other t) ∈ dd → (k, DomainVal.other t) ∈ dd2) ∧
        sigs = (dd.map (fun p => match p.2 with
          | DomainVal.entry e => (applyEntityUpdate e p.1 eid s (a.getD [])).2
          | DomainVal.other _ => [])).flatten) ∧
    (∀ (dd : DomainData) (cid deid ds : String) (da : Option Attrs)
        (tope ts : Option String) (ta : Option Attrs),
      (alookup cid dd = none →
        handle_update_state dd
          { entity_id := tope, state := ts, attributes := ta,
            config_entry_id := some cid,
            data := some { entity_id := some deid, state := some ds, attributes := da } } = some (dd, [])) ∧
      (∀ tag, alookup cid dd = some (DomainVal.other tag) →
        handle_update_state dd
          { entity_id := tope, state := ts, attributes := ta,
            config_entry_id := some cid,
            data := some { entity_id := some deid, state := some ds, attributes := da } } = some (dd, [])) ∧
      (∀ e, alookup cid dd = some (DomainVal.entry e) →
        ∃ dd2, handle_update_state dd
            { entity_id := tope, state := ts, attributes := ta,
              config_entry_id := some cid,
              data := some { entity_id := some deid, state := some ds, attributes := da } } =
            some (dd2, (applyEntityUpdate e cid deid ds (da.getD [])).2) ∧
          alookup cid dd2 =
            some (DomainVal.entry (applyEntityUpdate e cid deid ds (da.getD [])).1) ∧
          (∀ k, k ≠ cid → alookup k dd2 = alookup k dd) ∧
          (∀ q ∈ dd, q.1 ≠ cid → q ∈ dd2) ∧
          dd2.length = dd.length)) := by
  constructor
  · intro dd eid s a cfg dat hNF1
    obtain ⟨dd2, sigs, hleg, hlen, hmeme, hmemo, hsigs⟩ := legacy_update_spec dd eid s a
    have heq : handle_update_state dd
        { entity_id := some eid, state := some s, attributes := a,
          config_entry_id := cfg, data := dat } =
        legacy_update dd eid (some s) a := by
      rcases cfg with _ | cid
      · rcases dat with _ | d <;> rfl
      · rcases dat with _ | d
        · rfl
        · have hde : d.entity_id = none := hNF1 cid d rfl rfl
          simp only [handle_update_state, hde]
    exact ⟨dd2, sigs, heq.trans hleg, hlen, hmeme, hmemo, hsigs⟩
  · intro dd cid deid ds da tope ts ta
    have heq : handle_update_state dd
        { entity_id := tope, state := ts, attributes := ta,
          config_entry_id := some cid,
          data := some { entity_id := some deid, state := some ds, attributes := da } } =
        some (update_one_entry dd cid
          (fun e => applyEntityUpdate e cid deid ds (da.getD []))) := rfl
    refine ⟨?_, ?_, ?_⟩
    · intro hnone
      rw [heq]
      simp [update_one_entry, hnone]
    · intro tag htag
      rw [heq]
      simp [update_one_entry, htag]
    · intro e he
      refine ⟨dd.map (fun p => if p.1 = cid then
          (p.1, DomainVal.entry (applyEntityUpdate e cid deid ds (da.getD [])).1)
        else p), ?_, ?_, ?_, ?_, ?_⟩
      · rw [heq]
        simp [update_one_entry, he]
      · exact alookup_map_set_self dd cid _ (by rw [he]; rfl)
      · intro k hk
        exact alookup_map_set_ne dd cid k _ hk
      · intro q hq hqne
        exact mem_map_set_of_ne dd cid _ q hq hqne
      · exact List.length_map _ _

/-- C10 witness: a legacy message updates the lessons data of the one
loaded entry and skips the non-dictionary cache value. -/
theorem C10_witness :
    ∃ dd2 sigs,
      handle_update_state
        [("e1", DomainVal.entry {}), ("c", DomainVal.other "cache")]
        { entity_id := some "sensor.lessons_1", state := some "on",
          attributes := none, config_entry_id := none, data := none } =
        some (dd2, sigs) ∧
      dd2.length =
        ([("e1", DomainVal.entry {}), ("c", DomainVal.other "cache")] :
          DomainData).length ∧
      (∀ k e, (k, DomainVal.entry e) ∈
          ([("e1", DomainVal.entry {}), ("c", DomainVal.other "cache")] :
            DomainData) →
        (k, DomainVal.entry
          (applyEntityUpdate e k "sensor.lessons_1" "on"
            ((none : Option Attrs).getD [])).1) ∈ dd2) ∧
      (∀ k t, (k, DomainVal.other t) ∈
          ([("e1", DomainVal.entry {}), ("c", DomainVal.other "cache")] :
            DomainData) → (k, DomainVal.other t) ∈ dd2) ∧
      sigs = (([("e1", DomainVal.entry {}), ("c", DomainVal.other "cache")] :
          DomainData).map (fun p => match p.2 with
        | DomainVal.entry e =>
          (applyEntityUpdate e p.1 "sensor.lessons_1" "on"
            ((none : Option Attrs).getD [])).2
        | DomainVal.other _ => [])).flatten :=
  C10_update_state_formats.1
    [("e1", DomainVal.entry {}), ("c", DomainVal.other "cache")]
    "sensor.lessons_1" "on" none none none (fun _ _ h _ => nomatch h)

end IsAroundConnector
